import Mathlib

/-!
Shallow embedding of `src/TranslateApp_v1.py` (the chunked, retrying
translation engine and the batch loop of `main`), together with theorems
settling the specification claims.

Python strings are modelled as lists of Unicode code points (`List Char`),
matching Python's `str` indexing/slicing semantics.  The injected
translation provider (`translator.translate`) is modelled as an oracle
`Nat → Str → Str → Except Str Str`: given the global call index, the
segment text and the destination language it either returns a translated
text (`Except.ok`) or raises (`Except.error message`).  The global call
index is threaded through every function so that theorems can count
provider invocations.  `time.sleep` calls affect only timing and are not
modelled.
-/

namespace TranslateApp

/-- Python `str` as a sequence of Unicode code points. -/
abbrev Str := List Char

/-- The translation provider oracle: call index, segment text, destination
language ↦ translated text, or a raised error message. -/
abbrev Provider := Nat → Str → Str → Except Str Str

/-- Number of iterations of `for start in range(0, n, maxLen)`
(source line 28): `⌈n / maxLen⌉` for positive `maxLen`. -/
def segCount (n maxLen : Nat) : Nat :=
  (n + maxLen - 1) / maxLen

/-- The segmentation of source lines 28–29: iteration `i` of
`for start in range(0, len(text), max_len)` slices
`text[start : start + max_len]` with `start = i * max_len`. -/
def segmentText (s : Str) (maxLen : Nat) : List Str :=
  (List.range (segCount s.length maxLen)).map
    (fun i => (s.drop (i * maxLen)).take maxLen)

/-- Result of translating one segment (spec data model `SegmentResult`):
the source appends either the provider's text (line 33) or the failure
marker (line 39). -/
inductive SegmentResult where
  | translated (t : Str)
  | failed (e : Str)
deriving DecidableEq

/-- The text the inner loop of `safe_translate` appends for a segment:
the translated text on success, the marker built by
`f"[翻訳失敗: {e}]"` (source line 39) on failure. -/
def renderResult : SegmentResult → Str
  | .translated t => t
  | .failed e => ("[翻訳失敗: ".data) ++ e ++ ("]".data)

/-- The retry loop `for attempt in range(retries)` of `safe_translate`
(source lines 30–39), for one segment.  The `Nat` argument is the number
of attempts still available.  Returns the segment's result (`none` when
`retries = 0`, in which case the Python loop body never runs and nothing
is appended) and the updated global provider-call counter. -/
def attemptLoop (tr : Provider) (seg dest : Str) (calls : Nat) :
    Nat → Option SegmentResult × Nat
  | 0 => (none, calls)
  | rem + 1 =>
    match tr calls seg dest with
    | .ok part => (some (.translated part), calls + 1)
    | .error e =>
      if rem = 0 then (some (.failed e), calls + 1)
      else attemptLoop tr seg dest (calls + 1) rem

/-- The outer loop of `safe_translate` (source lines 27–41): translate
each segment with retries and accumulate the appended texts. -/
def translateChunks (tr : Provider) (text dest : Str)
    (retries maxLen calls : Nat) : Str × Nat :=
  (segmentText text maxLen).foldl
    (fun acc seg =>
      let r := attemptLoop tr seg dest acc.2 retries
      (acc.1 ++ (((r.1).map renderResult).getD []), r.2))
    ([], calls)

/-- `safe_translate` (source lines 21–41): returns `""` for empty input
(line 24–25) without consulting the provider, otherwise segments the text
with `max_len = 4500` (line 26) and translates each segment with retries.
Returns the accumulated text and the updated provider-call counter. -/
def safe_translate (tr : Provider) (text dest : Str)
    (retries calls : Nat) : Str × Nat :=
  if text = [] then ([], calls)
  else translateChunks tr text dest retries 4500 calls

/-- Python `s.startswith(p)` (source line 82): `p` matched literally at
the beginning of `s`. -/
def py_startswith (s p : Str) : Bool :=
  match s, p with
  | _, [] => true
  | [], _ :: _ => false
  | a :: as, b :: bs => a == b && py_startswith as bs

/-- The check of source line 82: does the rejoined result start with the
literal `"[翻訳失敗"`? -/
def hadFailureFlag (s : Str) : Bool :=
  py_startswith s ("[翻訳失敗".data)

/-- A raw table cell before coercion: a string, an integer, or a missing
value (pandas `NaN`). -/
inductive Cell where
  | strCell (s : Str)
  | intCell (n : Int)
  | nullCell
deriving DecidableEq

/-- pandas `Series.astype(str)` applied to one cell (source line 80):
strings are unchanged, numbers are stringified, and a missing value
(`NaN`) is rendered as the string `"nan"`. -/
def astype_str : Cell → Str
  | .strCell s => s
  | .intCell n => (toString n).data
  | .nullCell => ("nan".data)

/-- A pandas data frame, as an ordered association of column name to the
ordered list of that column's cells. -/
abbrev DataFrame := List (String × List Cell)

/-- `df[c]`: the first column named `c`, if any (pandas column names are
unique). -/
def lookupColumn (df : DataFrame) (c : String) : Option (List Cell) :=
  match df with
  | [] => none
  | (n, v) :: rest => if n = c then some v else lookupColumn rest c

/-- `df[c] = v` (source line 88): overwrite the column named `c` in place
if it exists, otherwise append it at the end. -/
def setColumn (df : DataFrame) (c : String) (v : List Cell) : DataFrame :=
  match df with
  | [] => [(c, v)]
  | (n, w) :: rest =>
    if n = c then (c, v) :: rest else (n, w) :: setColumn rest c v

/-- State of `main`'s translation loop (source lines 70–88): the mutated
data frame, the global provider-call counter, `current_task`,
`error_count`, and two recorded event logs: the `completed` counts passed
to the progress bar (line 86) and the per-cell outcomes keyed by
(column, row index). -/
structure BatchState where
  df : DataFrame
  calls : Nat
  current_task : Nat
  error_count : Nat
  progressEvents : List Nat
  outcomes : List ((String × Nat) × Str)
deriving DecidableEq

/-- The initial state of `main`'s translation loop for a data frame. -/
def initState (df : DataFrame) : BatchState :=
  { df := df, calls := 0, current_task := 0, error_count := 0,
    progressEvents := [], outcomes := [] }

/-- The body of `for cell in df[col].astype(str)` (source lines 80–87):
translate the cell, bump `error_count` when the result starts with the
literal `"[翻訳失敗"` (lines 82–83), append the result to `translations`
(line 84), advance `current_task` and report progress (lines 85–86).  The
accumulator also carries the next row index. -/
def runCell (tr : Provider) (col : String)
    (acc : BatchState × List Str × Nat) (cellText : Str) :
    BatchState × List Str × Nat :=
  let st := acc.1
  let translations := acc.2.1
  let row := acc.2.2
  let r := safe_translate tr cellText ("ja".data) 3 st.calls
  let ec := if hadFailureFlag r.1
            then st.error_count + 1 else st.error_count
  let ct := st.current_task + 1
  ({ df := st.df, calls := r.2, current_task := ct, error_count := ec,
     progressEvents := st.progressEvents ++ [ct],
     outcomes := st.outcomes ++ [((col, row), r.1)] },
   translations ++ [r.1], row + 1)

/-- One iteration of `for col in columns_to_translate` (source lines
78–88): translate every cell of the column (after `astype(str)` coercion)
and write the results back as the `<col>_JP` column (line 88). -/
def runColumn (tr : Provider) (st : BatchState) (col : String) :
    BatchState :=
  let cells := ((lookupColumn st.df col).getD []).map astype_str
  let folded := cells.foldl (runCell tr col) (st, [], 0)
  { folded.1 with
    df := setColumn folded.1.df (col ++ "_JP")
            ((folded.2.1).map Cell.strCell) }

/-- `main`'s translation loop (source lines 70–88): process the selected
columns in order, starting from fresh counters. -/
def main_loop (tr : Provider) (df : DataFrame) (cols : List String) :
    BatchState :=
  cols.foldl (runColumn tr) (initState df)

/-! Concrete provider oracles used to instantiate the theorems. -/

/-- A provider that always succeeds, returning `t`. -/
def alwaysOk (t : Str) : Provider := fun _ _ _ => Except.ok t

/-- A provider that always raises with message `e`. -/
def alwaysFail (e : Str) : Provider := fun _ _ _ => Except.error e

/-- A provider that raises with message `e` on the first `k` calls and
then always succeeds with `t`. -/
def failThenOk (k : Nat) (e t : Str) : Provider :=
  fun i _ _ => if i < k then Except.error e else Except.ok t

/-- A provider that succeeds with `t` on the first `k` calls and then
always raises with message `e`. -/
def okThenFail (k : Nat) (t e : Str) : Provider :=
  fun i _ _ => if i < k then Except.ok t else Except.error e

/-- The cells `main` iterates over for one column: `df[col].astype(str)`
(source line 80). -/
def colTexts (st : BatchState) (col : String) : List Str :=
  ((lookupColumn st.df col).getD []).map astype_str

/-- A 4501-code-point cell text: it is split into two segments by the
`max_len = 4500` slicing of `safe_translate`. -/
def bigText : Str := List.replicate 4500 'a' ++ ['b']

/-! ## Segmentation lemmas -/

theorem segCount_zero (k : Nat) : segCount 0 k = 0 := by
  unfold segCount
  rcases Nat.eq_zero_or_pos k with h | h
  · simp [h]
  · exact Nat.div_eq_of_lt (by omega)

theorem segCount_step (n k : Nat) (hk : 0 < k) (hn : 0 < n) :
    segCount n k = segCount (n - k) k + 1 := by
  unfold segCount
  rcases Nat.lt_or_ge k n with h | h
  · have h1 : n + k - 1 = (n - k - 1 + k) + k := by omega
    have h2 : n - k + k - 1 = (n - k - 1) + k := by omega
    rw [h1, h2, Nat.add_div_right _ hk, Nat.add_div_right _ hk]
  · have h0 : n - k = 0 := by omega
    have h1 : n + k - 1 = (n - 1) + k := by omega
    rw [h0, h1, Nat.add_div_right _ hk]
    have h2 : (n - 1) / k = 0 := Nat.div_eq_of_lt (by omega)
    have h3 : (0 + k - 1) / k = 0 := Nat.div_eq_of_lt (by omega)
    omega

theorem segmentText_nil (k : Nat) : segmentText [] k = [] := by
  simp [segmentText, segCount_zero]

theorem segmentText_eq_cons (s : Str) (k : Nat) (hk : 0 < k)
    (hs : s ≠ []) :
    segmentText s k = s.take k :: segmentText (s.drop k) k := by
  have hn : 0 < s.length := List.length_pos.mpr hs
  unfold segmentText
  rw [List.length_drop, segCount_step s.length k hk hn,
    List.range_succ_eq_map, List.map_cons, List.map_map]
  refine congrArg₂ List.cons (by simp) ?_
  refine List.map_congr_left fun i _ => ?_
  show (s.drop ((i + 1) * k)).take k = ((s.drop k).drop (i * k)).take k
  rw [List.drop_drop]
  have h : (i + 1) * k = k + i * k := by ring
  rw [h]

theorem segmentText_flatten (s : Str) (k : Nat) (hk : 0 < k) :
    (segmentText s k).flatten = s := by
  by_cases hs : s = []
  · subst hs; simp [segmentText_nil]
  · rw [segmentText_eq_cons s k hk hs, List.flatten_cons,
      segmentText_flatten (s.drop k) k hk, List.take_append_drop]
termination_by s.length
decreasing_by
  have hn : 0 < s.length := List.length_pos.mpr hs
  simp only [List.length_drop]
  omega

theorem segmentText_length_le (s : Str) (k : Nat) :
    ∀ seg ∈ segmentText s k, seg.length ≤ k := by
  intro seg hseg
  unfold segmentText at hseg
  rw [List.mem_map] at hseg
  obtain ⟨i, _, rfl⟩ := hseg
  simp [List.length_take]

theorem segmentText_count (s : Str) (k : Nat) :
    (segmentText s k).length = segCount s.length k := by
  simp [segmentText]

theorem segmentText_get (s : Str) (k i : Nat)
    (h : i < (segmentText s k).length) :
    (segmentText s k).get ⟨i, h⟩ = (s.drop (i * k)).take k := by
  simp [segmentText]

/-- C3: for every string `s` and every positive `maxLen`, segmenting `s`
yields contiguous non-overlapping segments in left-to-right order:
segment `i` is exactly the slice of `s` covering code-point offsets
`[i * maxLen, min ((i + 1) * maxLen) s.length)`, each segment's length is
at most `maxLen`, and concatenating all segments in order reproduces `s`
exactly. -/
theorem C3_segmentation (s : Str) (maxLen : Nat) (hk : 0 < maxLen) :
    (segmentText s maxLen).flatten = s ∧
    (∀ seg ∈ segmentText s maxLen, seg.length ≤ maxLen) ∧
    ∀ i (h : i < (segmentText s maxLen).length),
      (segmentText s maxLen).get ⟨i, h⟩ =
        (s.take (min ((i + 1) * maxLen) s.length)).drop (i * maxLen) := by
  refine ⟨segmentText_flatten s maxLen hk,
    segmentText_length_le s maxLen, fun i h => ?_⟩
  rw [segmentText_get, ← List.take_take, List.take_length, List.drop_take]
  have harith : (i + 1) * maxLen - i * maxLen = maxLen := by
    rw [Nat.succ_mul]; omega
  rw [harith]

/-- Witness for C3 at `s = "abcde"`, `maxLen = 2`. -/
theorem C3_segmentation_witness :
    0 < 2 ∧
    ((segmentText ("abcde".data) 2).flatten = "abcde".data ∧
      (∀ seg ∈ segmentText ("abcde".data) 2, seg.length ≤ 2) ∧
      ∀ i (h : i < (segmentText ("abcde".data) 2).length),
        (segmentText ("abcde".data) 2).get ⟨i, h⟩ =
          (("abcde".data).take (min ((i + 1) * 2) ("abcde".data).length)).drop
            (i * 2)) :=
  ⟨by decide, C3_segmentation ("abcde".data) 2 (by decide)⟩

/-! ## Retry-loop theorems -/

/-- C2: for every segment text, destination language, positive retry
count and injected provider (which may raise on any call), the
per-segment retry loop never propagates the provider's failure: it
always produces a `SegmentResult`, and when every attempt fails it is the
`failed` variant carrying the error raised on the final attempt, rendered
as the embedded failure-marker string. -/
theorem C2_never_propagates (tr : Provider) (seg dest : Str)
    (calls retries : Nat) (hr : 0 < retries) :
    (∃ part n, attemptLoop tr seg dest calls retries =
        (some (SegmentResult.translated part), n)) ∨
    (∃ e, attemptLoop tr seg dest calls retries =
        (some (SegmentResult.failed e), calls + retries) ∧
      tr (calls + retries - 1) seg dest = Except.error e ∧
      renderResult (SegmentResult.failed e) =
        ("[翻訳失敗: ".data) ++ e ++ ("]".data)) := by
  revert hr
  induction retries generalizing calls with
  | zero => intro hr; omega
  | succ rem ih =>
    intro _
    cases htr : tr calls seg dest with
    | ok part =>
      exact Or.inl ⟨part, calls + 1, by simp [attemptLoop, htr]⟩
    | error e =>
      rcases Nat.eq_zero_or_pos rem with hrem | hrem
      · subst hrem
        exact Or.inr ⟨e, by simp [attemptLoop, htr], by simpa using htr, rfl⟩
      · have hne : rem ≠ 0 := by omega
        rcases ih (calls + 1) hrem with ⟨part, n, h⟩ | ⟨e', h, htr', hrend⟩
        · exact Or.inl ⟨part, n, by simp [attemptLoop, htr, hne, h]⟩
        · refine Or.inr ⟨e', ?_, ?_, hrend⟩
          · rw [show attemptLoop tr seg dest calls (rem + 1) =
                attemptLoop tr seg dest (calls + 1) rem by
                  simp [attemptLoop, htr, hne], h]
            refine congrArg _ (by omega)
          · have harith : calls + 1 + rem - 1 = calls + (rem + 1) - 1 := by
              omega
            rw [harith] at htr'
            exact htr'

/-- Witness for C2: one retry, a provider that always raises. -/
theorem C2_never_propagates_witness :
    0 < 1 ∧
    ((∃ part n, attemptLoop (alwaysFail ("x".data)) ("s".data) ("ja".data)
        0 1 = (some (SegmentResult.translated part), n)) ∨
      (∃ e, attemptLoop (alwaysFail ("x".data)) ("s".data) ("ja".data)
          0 1 = (some (SegmentResult.failed e), 0 + 1) ∧
        alwaysFail ("x".data) (0 + 1 - 1) ("s".data) ("ja".data) =
          Except.error e ∧
        renderResult (SegmentResult.failed e) =
          ("[翻訳失敗: ".data) ++ e ++ ("]".data))) :=
  ⟨by decide,
    C2_never_propagates (alwaysFail ("x".data)) ("s".data) ("ja".data)
      0 1 (by decide)⟩

/-- C4: if the provider fails exactly the first `k` times for a segment
and then succeeds, with `k` strictly below the retry budget, the
segment's result is the `translated` variant carrying the provider's
text, and the provider was invoked exactly `k + 1` times (the call
counter advances from `calls` to `calls + (k + 1)`). -/
theorem C4_fail_k_then_succeed (tr : Provider) (seg dest : Str)
    (k retries calls : Nat) (part : Str)
    (hk : k < retries)
    (hfail : ∀ i, i < k → ∃ m, tr (calls + i) seg dest = Except.error m)
    (hok : tr (calls + k) seg dest = Except.ok part) :
    attemptLoop tr seg dest calls retries =
      (some (SegmentResult.translated part), calls + (k + 1)) := by
  revert hk hfail hok
  induction k generalizing retries calls with
  | zero =>
    intro hk hfail hok
    obtain ⟨rem, rfl⟩ : ∃ rem, retries = rem + 1 := ⟨retries - 1, by omega⟩
    have h0 : tr calls seg dest = Except.ok part := by simpa using hok
    simp [attemptLoop, h0]
  | succ k ih =>
    intro hk hfail hok
    obtain ⟨rem, rfl⟩ : ∃ rem, retries = rem + 1 := ⟨retries - 1, by omega⟩
    obtain ⟨m, hm⟩ := hfail 0 (Nat.succ_pos k)
    have hm0 : tr calls seg dest = Except.error m := by simpa using hm
    have hne : rem ≠ 0 := by omega
    have ihh := ih rem (calls + 1) (by omega)
      (fun i hi => by
        obtain ⟨m', hm'⟩ := hfail (i + 1) (by omega)
        have h' : calls + (i + 1) = calls + 1 + i := by omega
        rw [h'] at hm'
        exact ⟨m', hm'⟩)
      (by
        have h' : calls + (k + 1) = calls + 1 + k := by omega
        rw [h'] at hok
        exact hok)
    rw [show attemptLoop tr seg dest calls (rem + 1) =
          attemptLoop tr seg dest (calls + 1) rem by
            simp [attemptLoop, hm0, hne], ihh]
    refine congrArg _ (by omega)

/-- Witness for C4: the provider fails once then succeeds, with a
three-attempt budget; the result is `translated` after two calls. -/
theorem C4_fail_k_then_succeed_witness :
    1 < 3 ∧
    (∀ i, i < 1 → ∃ m, failThenOk 1 ("e".data) ("T".data) (0 + i)
        ("s".data) ("ja".data) = Except.error m) ∧
    failThenOk 1 ("e".data) ("T".data) (0 + 1) ("s".data) ("ja".data) =
      Except.ok ("T".data) ∧
    attemptLoop (failThenOk 1 ("e".data) ("T".data)) ("s".data)
        ("ja".data) 0 3 =
      (some (SegmentResult.translated ("T".data)), 0 + (1 + 1)) := by
  refine ⟨by decide, fun i hi => ⟨"e".data, ?_⟩, by rfl, ?_⟩
  · show (if 0 + i < 1 then Except.error ("e".data)
        else Except.ok ("T".data)) = Except.error ("e".data)
    rw [if_pos (by omega)]
  · exact C4_fail_k_then_succeed (failThenOk 1 ("e".data) ("T".data))
      ("s".data) ("ja".data) 1 3 0 ("T".data) (by decide)
      (fun i hi => ⟨"e".data, by
        show (if 0 + i < 1 then Except.error ("e".data)
            else Except.ok ("T".data)) = Except.error ("e".data)
        rw [if_pos (by omega)]⟩)
      (by rfl)

/-- C5: if the provider fails on every call for a segment, then after
exactly `retries` provider invocations (the call counter advances from
`calls` to `calls + retries`) the segment's result is the `failed`
variant carrying the final attempt's error, and its contribution to the
accumulated output is the non-empty marker embedding that error's
message. -/
theorem C5_exhaust_retries (tr : Provider) (seg dest : Str)
    (retries calls : Nat) (e : Nat → Str) (hr : 0 < retries)
    (hfail : ∀ i, i < retries →
      tr (calls + i) seg dest = Except.error (e i)) :
    attemptLoop tr seg dest calls retries =
      (some (SegmentResult.failed (e (retries - 1))), calls + retries) ∧
    renderResult (SegmentResult.failed (e (retries - 1))) =
      ("[翻訳失敗: ".data) ++ e (retries - 1) ++ ("]".data) ∧
    renderResult (SegmentResult.failed (e (retries - 1))) ≠ [] := by
  refine ⟨?_, rfl, ?_⟩
  · revert hr hfail
    induction retries generalizing calls e with
    | zero => intro hr _; omega
    | succ rem ih =>
      intro _ hfail
      have h0 : tr calls seg dest = Except.error (e 0) := by
        simpa using hfail 0 (Nat.succ_pos rem)
      rcases Nat.eq_zero_or_pos rem with hrem | hrem
      · subst hrem
        simp [attemptLoop, h0]
      · have hne : rem ≠ 0 := by omega
        have ihh := ih (calls + 1) (fun i => e (i + 1)) hrem
          (fun i hi => by
            have h := hfail (i + 1) (by omega)
            have h' : calls + (i + 1) = calls + 1 + i := by omega
            rw [h'] at h
            exact h)
        have heq : rem - 1 + 1 = rem := by omega
        simp only [heq] at ihh
        rw [show attemptLoop tr seg dest calls (rem + 1) =
              attemptLoop tr seg dest (calls + 1) rem by
                simp [attemptLoop, h0, hne], ihh]
        have h2 : rem + 1 - 1 = rem := by omega
        rw [h2]
        refine congrArg _ (by omega)
  · have hp : ("[翻訳失敗: ".data : Str) ≠ [] := by decide
    intro h
    rw [renderResult] at h
    rcases List.append_eq_nil.mp h with ⟨h1, _⟩
    rcases List.append_eq_nil.mp h1 with ⟨h2, _⟩
    exact hp h2

/-- Witness for C5: two attempts, the provider raising "timeout" on both;
the marker contains "timeout". -/
theorem C5_exhaust_retries_witness :
    (0 < 2 ∧
      ∀ i, i < 2 → alwaysFail ("timeout".data) (0 + i) ("s".data)
        ("ja".data) = Except.error ("timeout".data)) ∧
    (attemptLoop (alwaysFail ("timeout".data)) ("s".data) ("ja".data)
        0 2 =
      (some (SegmentResult.failed ("timeout".data)), 0 + 2) ∧
      renderResult (SegmentResult.failed ("timeout".data)) =
        ("[翻訳失敗: ".data) ++ ("timeout".data) ++ ("]".data) ∧
      renderResult (SegmentResult.failed ("timeout".data)) ≠ []) ∧
    ∃ a b, renderResult (SegmentResult.failed ("timeout".data)) =
      a ++ ("timeout".data) ++ b :=
  ⟨⟨by decide, fun i _ => rfl⟩,
    C5_exhaust_retries (alwaysFail ("timeout".data)) ("s".data)
      ("ja".data) 2 0 (fun _ => "timeout".data) (by decide)
      (fun i _ => rfl),
    ⟨"[翻訳失敗: ".data, "]".data, rfl⟩⟩

/-- C8: the empty input string yields zero segments and an empty,
non-failed outcome with zero provider invocations: `safe_translate`
returns `""` with the call counter unchanged, segmentation of `""` is
empty for every `maxLen`, and the empty result does not trip the
failure check of source line 82. -/
theorem C8_empty_input (tr : Provider) (dest : Str)
    (retries calls maxLen : Nat) :
    safe_translate tr [] dest retries calls = ([], calls) ∧
    segmentText [] maxLen = [] ∧
    hadFailureFlag [] = false := by
  exact ⟨by simp [safe_translate], segmentText_nil maxLen, rfl⟩

/-! ## Batch-loop lemmas -/

theorem runCell_df (tr : Provider) (col : String)
    (acc : BatchState × List Str × Nat) (t : Str) :
    (runCell tr col acc t).1.df = acc.1.df := rfl

theorem runCell_ct (tr : Provider) (col : String)
    (acc : BatchState × List Str × Nat) (t : Str) :
    (runCell tr col acc t).1.current_task = acc.1.current_task + 1 := rfl

theorem runCell_pe (tr : Provider) (col : String)
    (acc : BatchState × List Str × Nat) (t : Str) :
    (runCell tr col acc t).1.progressEvents =
      acc.1.progressEvents ++ [acc.1.current_task + 1] := rfl

theorem runCell_outcomes (tr : Provider) (col : String)
    (acc : BatchState × List Str × Nat) (t : Str) :
    (runCell tr col acc t).1.outcomes =
      acc.1.outcomes ++
        [((col, acc.2.2),
          (safe_translate tr t ("ja".data) 3 acc.1.calls).1)] := rfl

theorem runCell_ts (tr : Provider) (col : String)
    (acc : BatchState × List Str × Nat) (t : Str) :
    (runCell tr col acc t).2.1 =
      acc.2.1 ++ [(safe_translate tr t ("ja".data) 3 acc.1.calls).1] := rfl

theorem runCell_row (tr : Provider) (col : String)
    (acc : BatchState × List Str × Nat) (t : Str) :
    (runCell tr col acc t).2.2 = acc.2.2 + 1 := rfl

theorem runCell_ec (tr : Provider) (col : String)
    (acc : BatchState × List Str × Nat) (t : Str) :
    (runCell tr col acc t).1.error_count =
      (if hadFailureFlag (safe_translate tr t ("ja".data) 3 acc.1.calls).1
        then acc.1.error_count + 1 else acc.1.error_count) := rfl

theorem foldl_runCell_df (tr : Provider) (col : String) (texts : List Str) :
    ∀ acc : BatchState × List Str × Nat,
      (texts.foldl (runCell tr col) acc).1.df = acc.1.df := by
  induction texts with
  | nil => intro acc; rfl
  | cons t rest ih =>
    intro acc
    rw [List.foldl_cons, ih, runCell_df]

theorem foldl_runCell_ct (tr : Provider) (col : String) (texts : List Str) :
    ∀ acc : BatchState × List Str × Nat,
      (texts.foldl (runCell tr col) acc).1.current_task =
        acc.1.current_task + texts.length := by
  induction texts with
  | nil => intro acc; simp
  | cons t rest ih =>
    intro acc
    rw [List.foldl_cons, ih, runCell_ct, List.length_cons]
    omega

theorem foldl_runCell_pe (tr : Provider) (col : String) (texts : List Str) :
    ∀ acc : BatchState × List Str × Nat,
      (texts.foldl (runCell tr col) acc).1.progressEvents =
        acc.1.progressEvents ++
          List.range' (acc.1.current_task + 1) texts.length := by
  induction texts with
  | nil => intro acc; simp
  | cons t rest ih =>
    intro acc
    rw [List.foldl_cons, ih, runCell_pe, runCell_ct, List.length_cons,
      List.range'_succ, List.append_assoc]
    simp

theorem foldl_runCell_keys (tr : Provider) (col : String)
    (texts : List Str) :
    ∀ acc : BatchState × List Str × Nat,
      (texts.foldl (runCell tr col) acc).1.outcomes.map Prod.fst =
        acc.1.outcomes.map Prod.fst ++
          (List.range' acc.2.2 texts.length).map (fun r => (col, r)) := by
  induction texts with
  | nil => intro acc; simp
  | cons t rest ih =>
    intro acc
    rw [List.foldl_cons, ih, runCell_outcomes, runCell_row,
      List.length_cons, List.range'_succ]
    simp

theorem foldl_runCell_outlen (tr : Provider) (col : String)
    (texts : List Str) :
    ∀ acc : BatchState × List Str × Nat,
      (texts.foldl (runCell tr col) acc).1.outcomes.length =
        acc.1.outcomes.length + texts.length := by
  induction texts with
  | nil => intro acc; simp
  | cons t rest ih =>
    intro acc
    rw [List.foldl_cons, ih, runCell_outcomes, List.length_cons,
      List.length_append]
    simp
    omega

theorem foldl_runCell_tslen (tr : Provider) (col : String)
    (texts : List Str) :
    ∀ acc : BatchState × List Str × Nat,
      (texts.foldl (runCell tr col) acc).2.1.length =
        acc.2.1.length + texts.length := by
  induction texts with
  | nil => intro acc; simp
  | cons t rest ih =>
    intro acc
    rw [List.foldl_cons, ih, runCell_ts, List.length_cons,
      List.length_append]
    simp
    omega

theorem foldl_runCell_errinv (tr : Provider) (col : String)
    (texts : List Str) :
    ∀ acc : BatchState × List Str × Nat,
      acc.1.error_count =
        (acc.1.outcomes.map Prod.snd).countP hadFailureFlag →
      (texts.foldl (runCell tr col) acc).1.error_count =
        ((texts.foldl (runCell tr col) acc).1.outcomes.map
          Prod.snd).countP hadFailureFlag := by
  induction texts with
  | nil => intro acc h; exact h
  | cons t rest ih =>
    intro acc h
    rw [List.foldl_cons]
    apply ih
    rw [runCell_ec, runCell_outcomes, List.map_append, List.countP_append,
      ← h]
    by_cases hp :
      hadFailureFlag (safe_translate tr t ("ja".data) 3 acc.1.calls).1
    · simp [hp]
    · simp [hp]

theorem lookupColumn_mem (df : DataFrame) (c : String) (v : List Cell)
    (h : lookupColumn df c = some v) : (c, v) ∈ df := by
  induction df with
  | nil => simp [lookupColumn] at h
  | cons p rest ih =>
    obtain ⟨n, w⟩ := p
    by_cases hn : n = c
    · subst hn
      simp [lookupColumn] at h
      subst h
      exact List.mem_cons_self _ _
    · simp [lookupColumn, hn] at h
      exact List.mem_cons_of_mem _ (ih h)

theorem lookupColumn_setColumn_self (df : DataFrame) (c : String)
    (v : List Cell) : lookupColumn (setColumn df c v) c = some v := by
  induction df with
  | nil => simp [setColumn, lookupColumn]
  | cons p rest ih =>
    obtain ⟨n, w⟩ := p
    by_cases hn : n = c
    · simp [setColumn, hn, lookupColumn]
    · simp [setColumn, hn, lookupColumn, ih]

theorem lookupColumn_setColumn_ne (df : DataFrame) (c : String)
    (v : List Cell) (n : String) (h : n ≠ c) :
    lookupColumn (setColumn df c v) n = lookupColumn df n := by
  have h1 : ¬ (c = n) := fun hh => h hh.symm
  induction df with
  | nil =>
    simp [setColumn, lookupColumn, h1]
  | cons p rest ih =>
    obtain ⟨m, w⟩ := p
    by_cases hm : m = c
    · have h2 : ¬ (m = n) := by rw [hm]; exact h1
      rw [show setColumn ((m, w) :: rest) c v = (c, v) :: rest by
        simp [setColumn, hm]]
      simp [lookupColumn, h1, h2]
    · rw [show setColumn ((m, w) :: rest) c v =
          (m, w) :: setColumn rest c v by simp [setColumn, hm]]
      simp [lookupColumn, ih]

theorem lookupColumn_setColumn_isSome (df : DataFrame) (c : String)
    (v : List Cell) (n : String)
    (h : (lookupColumn df n).isSome) :
    (lookupColumn (setColumn df c v) n).isSome := by
  by_cases hn : n = c
  · subst hn
    rw [lookupColumn_setColumn_self]
    rfl
  · rw [lookupColumn_setColumn_ne df c v n hn]
    exact h

theorem setColumn_lengths (df : DataFrame) (c : String) (v : List Cell)
    (M : Nat) (hdf : ∀ p ∈ df, (p.2).length = M) (hv : v.length = M) :
    ∀ p ∈ setColumn df c v, (p.2).length = M := by
  induction df with
  | nil =>
    intro p hp
    simp [setColumn] at hp
    subst hp
    exact hv
  | cons q rest ih =>
    obtain ⟨n, w⟩ := q
    intro p hp
    by_cases hn : n = c
    · simp [setColumn, hn] at hp
      rcases hp with hp | hp
      · subst hp; exact hv
      · exact hdf p (List.mem_cons_of_mem _ hp)
    · simp [setColumn, hn] at hp
      rcases hp with hp | hp
      · subst hp; exact hdf (n, w) (List.mem_cons_self _ _)
      · exact ih (fun q hq => hdf q (List.mem_cons_of_mem _ hq)) p hp

theorem runColumn_df_eq (tr : Provider) (st : BatchState) (col : String) :
    (runColumn tr st col).df =
      setColumn st.df (col ++ "_JP")
        ((((colTexts st col).foldl (runCell tr col)
          (st, [], 0)).2.1).map Cell.strCell) := by
  show setColumn
      (((colTexts st col).foldl (runCell tr col) (st, [], 0)).1.df)
      (col ++ "_JP") _ = _
  rw [foldl_runCell_df]
  rfl

theorem runColumn_ct_eq (tr : Provider) (st : BatchState) (col : String) :
    (runColumn tr st col).current_task =
      st.current_task + (colTexts st col).length := by
  show ((colTexts st col).foldl (runCell tr col)
    (st, [], 0)).1.current_task = _
  rw [foldl_runCell_ct]

theorem runColumn_pe_eq (tr : Provider) (st : BatchState) (col : String) :
    (runColumn tr st col).progressEvents =
      st.progressEvents ++
        List.range' (st.current_task + 1) (colTexts st col).length := by
  show ((colTexts st col).foldl (runCell tr col)
    (st, [], 0)).1.progressEvents = _
  rw [foldl_runCell_pe]

theorem runColumn_keys_eq (tr : Provider) (st : BatchState)
    (col : String) :
    (runColumn tr st col).outcomes.map Prod.fst =
      st.outcomes.map Prod.fst ++
        (List.range' 0 (colTexts st col).length).map
          (fun r => (col, r)) := by
  show (((colTexts st col).foldl (runCell tr col)
    (st, [], 0)).1.outcomes).map Prod.fst = _
  rw [foldl_runCell_keys]

theorem runColumn_outlen_eq (tr : Provider) (st : BatchState)
    (col : String) :
    (runColumn tr st col).outcomes.length =
      st.outcomes.length + (colTexts st col).length := by
  show ((colTexts st col).foldl (runCell tr col)
    (st, [], 0)).1.outcomes.length = _
  rw [foldl_runCell_outlen]

theorem colTexts_length (st : BatchState) (col : String) (M : Nat)
    (hlen : ∀ p ∈ st.df, (p.2).length = M)
    (hcol : (lookupColumn st.df col).isSome) :
    (colTexts st col).length = M := by
  obtain ⟨v, hv⟩ := Option.isSome_iff_exists.mp hcol
  have hM : v.length = M :=
    hlen (col, v) (lookupColumn_mem st.df col v hv)
  rw [colTexts, hv]
  simpa using hM

theorem runColumn_spec (tr : Provider) (st : BatchState) (col : String)
    (M : Nat) (hlen : ∀ p ∈ st.df, (p.2).length = M)
    (hcol : (lookupColumn st.df col).isSome) :
    (∀ p ∈ (runColumn tr st col).df, (p.2).length = M) ∧
    (∀ c, (lookupColumn st.df c).isSome →
      (lookupColumn ((runColumn tr st col).df) c).isSome) ∧
    (runColumn tr st col).current_task = st.current_task + M ∧
    (runColumn tr st col).progressEvents =
      st.progressEvents ++ List.range' (st.current_task + 1) M ∧
    (runColumn tr st col).outcomes.map Prod.fst =
      st.outcomes.map Prod.fst ++
        (List.range' 0 M).map (fun r => (col, r)) ∧
    (runColumn tr st col).outcomes.length = st.outcomes.length + M := by
  have hc := colTexts_length st col M hlen hcol
  refine ⟨?_, ?_, ?_, ?_, ?_, ?_⟩
  · rw [runColumn_df_eq]
    refine setColumn_lengths st.df (col ++ "_JP") _ M hlen ?_
    rw [List.length_map, foldl_runCell_tslen]
    simpa using hc
  · intro c hcs
    rw [runColumn_df_eq]
    exact lookupColumn_setColumn_isSome _ _ _ _ hcs
  · rw [runColumn_ct_eq, hc]
  · rw [runColumn_pe_eq, hc]
  · rw [runColumn_keys_eq, hc]
  · rw [runColumn_outlen_eq, hc]

theorem foldl_runColumn_spec (tr : Provider) (M : Nat)
    (cols : List String) :
    ∀ st : BatchState,
      (∀ p ∈ st.df, (p.2).length = M) →
      (∀ c ∈ cols, (lookupColumn st.df c).isSome) →
      (∀ p ∈ (cols.foldl (runColumn tr) st).df, (p.2).length = M) ∧
      (∀ c, (lookupColumn st.df c).isSome →
        (lookupColumn ((cols.foldl (runColumn tr) st).df) c).isSome) ∧
      (cols.foldl (runColumn tr) st).current_task =
        st.current_task + cols.length * M ∧
      (cols.foldl (runColumn tr) st).progressEvents =
        st.progressEvents ++
          List.range' (st.current_task + 1) (cols.length * M) ∧
      (cols.foldl (runColumn tr) st).outcomes.map Prod.fst =
        st.outcomes.map Prod.fst ++
          cols.flatMap (fun c => (List.range' 0 M).map
            (fun r => (c, r))) ∧
      (cols.foldl (runColumn tr) st).outcomes.length =
        st.outcomes.length + cols.length * M := by
  induction cols with
  | nil =>
    intro st h1 h2
    exact ⟨h1, fun c h => h, by simp, by simp, by simp, by simp⟩
  | cons c rest ih =>
    intro st h1 h2
    obtain ⟨g1, g2, g3, g4, g5, g6⟩ :=
      runColumn_spec tr st c M h1 (h2 c (List.mem_cons_self _ _))
    obtain ⟨r1, r2, r3, r4, r5, r6⟩ := ih (runColumn tr st c) g1
      (fun c' hc' => g2 c' (h2 c' (List.mem_cons_of_mem _ hc')))
    refine ⟨r1, fun c' h' => r2 c' (g2 c' h'), ?_, ?_, ?_, ?_⟩
    · rw [List.foldl_cons, r3, g3, List.length_cons, Nat.succ_mul]
      omega
    · rw [g4, g3] at r4
      rw [List.foldl_cons, r4, List.append_assoc,
        show st.current_task + M + 1 = st.current_task + 1 + M by omega,
        List.range'_append_1, List.length_cons, Nat.succ_mul]
    · rw [g5] at r5
      rw [List.foldl_cons, r5, List.append_assoc, List.flatMap_cons]
    · rw [g6] at r6
      rw [List.foldl_cons, r6, List.length_cons, Nat.succ_mul]
      omega

theorem runColumn_errinv (tr : Provider) (st : BatchState) (col : String)
    (h : st.error_count =
      (st.outcomes.map Prod.snd).countP hadFailureFlag) :
    (runColumn tr st col).error_count =
      ((runColumn tr st col).outcomes.map Prod.snd).countP
        hadFailureFlag := by
  exact foldl_runCell_errinv tr col (colTexts st col) (st, [], 0) h

theorem foldl_runColumn_errinv (tr : Provider) (cols : List String) :
    ∀ st : BatchState,
      st.error_count =
        (st.outcomes.map Prod.snd).countP hadFailureFlag →
      (cols.foldl (runColumn tr) st).error_count =
        (((cols.foldl (runColumn tr) st).outcomes.map
          Prod.snd)).countP hadFailureFlag := by
  induction cols with
  | nil => intro st h; exact h
  | cons c rest ih =>
    intro st h
    rw [List.foldl_cons]
    exact ih (runColumn tr st c) (runColumn_errinv tr st c h)

theorem runColumn_lookup_ne (tr : Provider) (st : BatchState)
    (col name : String) (h : name ≠ col ++ "_JP") :
    lookupColumn ((runColumn tr st col).df) name =
      lookupColumn st.df name := by
  rw [runColumn_df_eq, lookupColumn_setColumn_ne _ _ _ _ h]

theorem foldl_runColumn_lookup_ne (tr : Provider) (cols : List String) :
    ∀ (st : BatchState) (name : String),
      (∀ c ∈ cols, name ≠ c ++ "_JP") →
      lookupColumn ((cols.foldl (runColumn tr) st).df) name =
        lookupColumn st.df name := by
  induction cols with
  | nil => intro st name _; rfl
  | cons c rest ih =>
    intro st name hn
    rw [List.foldl_cons,
      ih (runColumn tr st c) name
        (fun c' hc' => hn c' (List.mem_cons_of_mem _ hc')),
      runColumn_lookup_ne tr st c name (hn c (List.mem_cons_self _ _))]

theorem runColumn_lookup_isSome (tr : Provider) (st : BatchState)
    (col name : String) (h : (lookupColumn st.df name).isSome) :
    (lookupColumn ((runColumn tr st col).df) name).isSome := by
  rw [runColumn_df_eq]
  exact lookupColumn_setColumn_isSome _ _ _ _ h

theorem foldl_runColumn_lookup_isSome (tr : Provider)
    (cols : List String) :
    ∀ (st : BatchState) (name : String),
      (lookupColumn st.df name).isSome →
      (lookupColumn ((cols.foldl (runColumn tr) st).df) name).isSome := by
  induction cols with
  | nil => intro st name h; exact h
  | cons c rest ih =>
    intro st name h
    rw [List.foldl_cons]
    exact ih (runColumn tr st c) name
      (runColumn_lookup_isSome tr st c name h)

theorem foldl_runColumn_written (tr : Provider) (cols : List String) :
    ∀ (st : BatchState) (c : String), c ∈ cols →
      (lookupColumn ((cols.foldl (runColumn tr) st).df)
        (c ++ "_JP")).isSome := by
  induction cols with
  | nil => intro st c hc; simp at hc
  | cons c0 rest ih =>
    intro st c hc
    rw [List.foldl_cons]
    rcases List.mem_cons.mp hc with rfl | hc
    · apply foldl_runColumn_lookup_isSome
      rw [runColumn_df_eq, lookupColumn_setColumn_self]
      rfl
    · exact ih (runColumn tr st c0) c hc

/-! ## Batch claims -/

/-- C1 (amended): for every batch, `error_count` equals the number of
outcomes whose rejoined output string starts with the literal
`"[翻訳失敗"` (the check of source lines 82–83).  This is the code's
operational failure flag; it is not equivalent to "at least one segment
exhausted retries" (see the counterexample). -/
theorem C1_failure_count (tr : Provider) (df : DataFrame)
    (cols : List String) :
    (main_loop tr df cols).error_count =
      ((main_loop tr df cols).outcomes.map Prod.snd).countP
        hadFailureFlag :=
  foldl_runColumn_errinv tr cols (initState df) rfl

/-- C1 counterexample: with a provider that succeeds on its single call
(`calls = 1 < 3`, so no segment ever exhausted its retry attempts), the
genuine translation `"[翻訳失敗]"` still trips the prefix check and the
error counter reads `1`, whereas the claim ("failureCount equals the
number of outcomes with a retry-exhausted segment") demands `0`. -/
theorem C1_counterexample :
    (main_loop (alwaysOk ("[翻訳失敗]".data))
      [("c", [Cell.strCell ("x".data)])] ["c"]).error_count = 1 ∧
    (main_loop (alwaysOk ("[翻訳失敗]".data))
      [("c", [Cell.strCell ("x".data)])] ["c"]).calls = 1 ∧
    (main_loop (alwaysOk ("[翻訳失敗]".data))
      [("c", [Cell.strCell ("x".data)])] ["c"]).outcomes =
      [(("c", 0), ("[翻訳失敗]".data))] :=
  ⟨by decide, by decide, by decide⟩

theorem bigText_segments : segmentText bigText 4500 =
    [List.replicate 4500 'a', ['b']] := by
  have hlen : (List.replicate 4500 'a').length = 4500 :=
    List.length_replicate 4500 'a'
  have ht : bigText.take 4500 = List.replicate 4500 'a' :=
    List.take_left' hlen
  have hd : bigText.drop 4500 = ['b'] := List.drop_left' hlen
  have hs : bigText ≠ [] :=
    List.append_ne_nil_of_right_ne_nil _ (by simp)
  rw [segmentText_eq_cons bigText 4500 (by omega) hs, ht, hd,
    segmentText_eq_cons ['b'] 4500 (by omega) (by simp),
    List.take_of_length_le (by simp),
    show (['b'] : Str).drop 4500 = [] from
      List.drop_of_length_le (by simp),
    segmentText_nil]

theorem bigText_eval :
    safe_translate (okThenFail 1 ("T".data) ("boom".data)) bigText
      ("ja".data) 3 0 =
    (("T".data) ++ ("[翻訳失敗: boom]".data), 4) := by
  have hs : bigText ≠ [] :=
    List.append_ne_nil_of_right_ne_nil _ (by simp)
  unfold safe_translate translateChunks
  rw [if_neg hs, bigText_segments]
  rfl

theorem scenarioA_state :
    main_loop (okThenFail 1 ("T".data) ("boom".data))
      [("c", [Cell.strCell bigText])] ["c"] =
    { df := setColumn [("c", [Cell.strCell bigText])] ("c" ++ "_JP")
        [Cell.strCell (("T".data) ++ ("[翻訳失敗: boom]".data))],
      calls := 4, current_task := 1, error_count := 0,
      progressEvents := [1],
      outcomes :=
        [(("c", 0), ("T".data) ++ ("[翻訳失敗: boom]".data))] } := by
  have hraw : ((lookupColumn [("c", [Cell.strCell bigText])]
      "c").getD []).map astype_str = [bigText] := by
    simp [lookupColumn, astype_str]
  have hflag :
      hadFailureFlag (("T".data) ++ ("[翻訳失敗: boom]".data)) =
        false := by decide
  simp only [main_loop, List.foldl_cons, List.foldl_nil, runColumn,
    initState]
  rw [hraw]
  simp only [List.foldl_cons, List.foldl_nil, runCell]
  rw [bigText_eval]
  simp
  decide

/-- C9: the error counter increments exactly for those cells whose final
rejoined output starts with the literal `"[翻訳失敗"`.  In particular a
cell whose first segment translates successfully but whose second
segment exhausts all three retry attempts is NOT counted (the marker is
embedded mid-string), while a fully successful translation that happens
to begin with the marker text IS counted. -/
theorem C9_counting_by_marker :
    (∀ (tr : Provider) (df : DataFrame) (cols : List String),
      (main_loop tr df cols).error_count =
        ((main_loop tr df cols).outcomes.map Prod.snd).countP
          hadFailureFlag) ∧
    ((main_loop (okThenFail 1 ("T".data) ("boom".data))
        [("c", [Cell.strCell bigText])] ["c"]).outcomes.map Prod.snd =
      [("T".data) ++ ("[翻訳失敗: boom]".data)] ∧
      (main_loop (okThenFail 1 ("T".data) ("boom".data))
        [("c", [Cell.strCell bigText])] ["c"]).error_count = 0 ∧
      (main_loop (okThenFail 1 ("T".data) ("boom".data))
        [("c", [Cell.strCell bigText])] ["c"]).calls = 4) ∧
    (main_loop (alwaysOk ("[翻訳失敗 fake]".data))
      [("d", [Cell.strCell ("y".data)])] ["d"]).error_count = 1 :=
  ⟨fun tr df cols => foldl_runColumn_errinv tr cols (initState df) rfl,
    ⟨by rw [scenarioA_state]; rfl, by rw [scenarioA_state],
      by rw [scenarioA_state]⟩, by decide⟩

/-- C6: for a batch of `N = cols.length` columns each of `M` rows, the
translation loop records exactly `N * M` outcomes keyed by
(column, row) in column-major then row-major order — never interleaved,
preserving input order — and the progress observer is invoked exactly
`N * M` times, once after each value, with strictly increasing completed
counts `1, 2, …, N * M`. -/
theorem C6_batch_shape (tr : Provider) (df : DataFrame)
    (cols : List String) (M : Nat)
    (hlen : ∀ p ∈ df, (p.2).length = M)
    (hcols : ∀ c ∈ cols, (lookupColumn df c).isSome) :
    (main_loop tr df cols).outcomes.length = cols.length * M ∧
    (main_loop tr df cols).outcomes.map Prod.fst =
      cols.flatMap (fun c => (List.range' 0 M).map (fun r => (c, r))) ∧
    (main_loop tr df cols).progressEvents =
      List.range' 1 (cols.length * M) ∧
    (main_loop tr df cols).progressEvents.length = cols.length * M ∧
    List.Pairwise (· < ·) (main_loop tr df cols).progressEvents ∧
    (main_loop tr df cols).progressEvents.getLast? =
      (if cols.length * M = 0 then none
        else some (cols.length * M)) := by
  obtain ⟨-, -, -, h4, h5, h6⟩ :=
    foldl_runColumn_spec tr M cols (initState df) hlen hcols
  have hpe : (main_loop tr df cols).progressEvents =
      List.range' 1 (cols.length * M) := by
    simpa [initState] using h4
  refine ⟨by simpa [initState] using h6, by simpa [initState] using h5,
    hpe, by rw [hpe, List.length_range'], ?_, ?_⟩
  · rw [hpe]
    exact List.pairwise_lt_range' 1 (cols.length * M)
  · rcases Nat.eq_zero_or_pos (cols.length * M) with h0 | h0
    · simp [hpe, List.getLast?_range', h0]
    · have hne : cols.length * M ≠ 0 := by omega
      simp [hpe, List.getLast?_range', hne]

/-- Witness for C6 on a 2-column × 2-row batch. -/
theorem C6_batch_shape_witness :
    ((∀ p ∈ ([("a", [Cell.strCell ("x".data), Cell.nullCell]),
        ("b", [Cell.intCell 1, Cell.intCell 2])] : DataFrame),
      (p.2).length = 2) ∧
      (∀ c ∈ ["a", "b"],
        (lookupColumn [("a", [Cell.strCell ("x".data), Cell.nullCell]),
          ("b", [Cell.intCell 1, Cell.intCell 2])] c).isSome)) ∧
    ((main_loop (alwaysOk ("T".data))
        [("a", [Cell.strCell ("x".data), Cell.nullCell]),
          ("b", [Cell.intCell 1, Cell.intCell 2])]
        ["a", "b"]).outcomes.length = (["a", "b"] : List String).length * 2 ∧
      (main_loop (alwaysOk ("T".data))
        [("a", [Cell.strCell ("x".data), Cell.nullCell]),
          ("b", [Cell.intCell 1, Cell.intCell 2])]
        ["a", "b"]).outcomes.map Prod.fst =
        (["a", "b"] : List String).flatMap
          (fun c => (List.range' 0 2).map (fun r => (c, r))) ∧
      (main_loop (alwaysOk ("T".data))
        [("a", [Cell.strCell ("x".data), Cell.nullCell]),
          ("b", [Cell.intCell 1, Cell.intCell 2])]
        ["a", "b"]).progressEvents =
        List.range' 1 ((["a", "b"] : List String).length * 2) ∧
      (main_loop (alwaysOk ("T".data))
        [("a", [Cell.strCell ("x".data), Cell.nullCell]),
          ("b", [Cell.intCell 1, Cell.intCell 2])]
        ["a", "b"]).progressEvents.length =
        (["a", "b"] : List String).length * 2 ∧
      List.Pairwise (· < ·)
        (main_loop (alwaysOk ("T".data))
          [("a", [Cell.strCell ("x".data), Cell.nullCell]),
            ("b", [Cell.intCell 1, Cell.intCell 2])]
          ["a", "b"]).progressEvents ∧
      (main_loop (alwaysOk ("T".data))
        [("a", [Cell.strCell ("x".data), Cell.nullCell]),
          ("b", [Cell.intCell 1, Cell.intCell 2])]
        ["a", "b"]).progressEvents.getLast? =
        (if (["a", "b"] : List String).length * 2 = 0 then none
          else some ((["a", "b"] : List String).length * 2))) :=
  ⟨⟨by decide, by decide⟩,
    C6_batch_shape (alwaysOk ("T".data))
      [("a", [Cell.strCell ("x".data), Cell.nullCell]),
        ("b", [Cell.intCell 1, Cell.intCell 2])]
      ["a", "b"] 2 (by decide) (by decide)⟩

/-- C10: the translation loop modifies only the output columns
`<c>_JP` of the selected columns `c` — every other column's values (and
hence its row order) are unchanged — one `<c>_JP` column is written per
selected column, and every column of the resulting table still has `M`
rows. -/
theorem C10_frame (tr : Provider) (df : DataFrame) (cols : List String)
    (M : Nat) (hlen : ∀ p ∈ df, (p.2).length = M)
    (hcols : ∀ c ∈ cols, (lookupColumn df c).isSome) :
    (∀ name, (∀ c ∈ cols, name ≠ c ++ "_JP") →
      lookupColumn ((main_loop tr df cols).df) name =
        lookupColumn df name) ∧
    (∀ c ∈ cols,
      (lookupColumn ((main_loop tr df cols).df) (c ++ "_JP")).isSome) ∧
    (∀ p ∈ (main_loop tr df cols).df, (p.2).length = M) :=
  ⟨fun name hn => foldl_runColumn_lookup_ne tr cols (initState df) name hn,
    fun c hc => foldl_runColumn_written tr cols (initState df) c hc,
    (foldl_runColumn_spec tr M cols (initState df) hlen hcols).1⟩

/-- Witness for C10 on a 2-column table with one selected column. -/
theorem C10_frame_witness :
    ((∀ p ∈ ([("a", [Cell.strCell ("x".data)]),
        ("b", [Cell.nullCell])] : DataFrame), (p.2).length = 1) ∧
      (∀ c ∈ ["a"],
        (lookupColumn [("a", [Cell.strCell ("x".data)]),
          ("b", [Cell.nullCell])] c).isSome)) ∧
    ((∀ name, (∀ c ∈ ["a"], name ≠ c ++ "_JP") →
      lookupColumn ((main_loop (alwaysOk ("T".data))
        [("a", [Cell.strCell ("x".data)]), ("b", [Cell.nullCell])]
        ["a"]).df) name =
        lookupColumn [("a", [Cell.strCell ("x".data)]),
          ("b", [Cell.nullCell])] name) ∧
      (∀ c ∈ ["a"],
        (lookupColumn ((main_loop (alwaysOk ("T".data))
          [("a", [Cell.strCell ("x".data)]), ("b", [Cell.nullCell])]
          ["a"]).df) (c ++ "_JP")).isSome) ∧
      (∀ p ∈ (main_loop (alwaysOk ("T".data))
        [("a", [Cell.strCell ("x".data)]), ("b", [Cell.nullCell])]
        ["a"]).df, (p.2).length = 1)) :=
  ⟨⟨by decide, by decide⟩,
    C10_frame (alwaysOk ("T".data))
      [("a", [Cell.strCell ("x".data)]), ("b", [Cell.nullCell])]
      ["a"] 1 (by decide) (by decide)⟩

/-- C7 counterexample: pandas `astype(str)` renders a missing value as
the string `"nan"`, not the empty string, so a null cell is non-empty
after coercion and does trigger a provider call (the call counter ends
at 1, not 0). -/
theorem C7_counterexample :
    astype_str Cell.nullCell = ("nan".data) ∧
    astype_str Cell.nullCell ≠ ([] : Str) ∧
    (main_loop (alwaysOk ("T".data)) [("c", [Cell.nullCell])]
      ["c"]).calls = 1 :=
  ⟨rfl, by decide, by decide⟩

/-- C7 (amended): raw cell values are coerced to text before
translation — strings unchanged, non-string values stringified — but
null/missing values become the non-empty string `"nan"` (pandas
`astype(str)`), so null cells do trigger a provider call and are not
skipped as empty. -/
theorem C7_coercion (n : Int) (s : Str) :
    astype_str (Cell.strCell s) = s ∧
    astype_str (Cell.intCell n) = (toString n).data ∧
    astype_str Cell.nullCell = ("nan".data) ∧
    astype_str Cell.nullCell ≠ ([] : Str) ∧
    (main_loop (alwaysOk ("T".data)) [("c", [Cell.nullCell])]
      ["c"]).calls = 1 :=
  ⟨rfl, rfl, rfl, by decide, by decide⟩

end TranslateApp
